import Mathlib

/-!
# Verification of the tasklocker concurrency limiter

Shallow embedding of `src/tasklocker.go`: a distributed concurrency limiter
built on a Redis-like key-value store. The store is modelled as a list of
(key, absolute expiry time) entries together with a clock; a key is live
while the clock is strictly below its expiry, which models the store's TTL
mechanism (an expired key is invisible to EXISTS and KEYS).

`AcquireLock` performs three separate store operations, exactly as the Go
code does: an EXISTS check on the task key, a KEYS scan on the wildcard
pattern of the task class, and conditionally a SETEX write. Each operation
can fail (store communication failure); failure of operation i is modelled
by the corresponding boolean flag. The extra flag `setExApplied` records
whether a failed SETEX nevertheless took effect server-side, which the
caller cannot observe.
-/

/-- A Redis-like store state: entries are (key, absolute expiry time), and
`now` is the current clock. A key is live while `now` is strictly below its
expiry. -/
structure RedisState where
  store : List (String × Nat)
  now : Nat
deriving Repr, DecidableEq

/-- An entry is live when the clock has not yet reached its expiry time. -/
def entryLive (st : RedisState) (e : String × Nat) : Bool :=
  st.now < e.2

/-- The EXISTS command: number of live entries with the given key
(0 or 1 in a well-formed store). -/
def existsCmd (st : RedisState) (k : String) : Nat :=
  (st.store.filter (fun e => e.1 == k && entryLive st e)).length

/-- Glob matching as the KEYS command applies it to the patterns this code
issues: a pattern ending in the `*` wildcard matches every key extending its
stem, any other pattern matches only the identical key. -/
def patMatches (pat k : String) : Bool :=
  if pat.data.getLast? = some '*' then
    pat.data.dropLast.isPrefixOf k.data
  else pat == k

/-- The KEYS command: the live keys matching the pattern. -/
def keysCmd (st : RedisState) (pat : String) : List String :=
  ((st.store.filter (fun e => entryLive st e)).map Prod.fst).filter
    (fun k => patMatches pat k)

/-- The SETEX command: set the key with a time-to-live, replacing any
previous entry for it. -/
def setExCmd (st : RedisState) (k : String) (ttl : Nat) : RedisState :=
  { st with store := (k, st.now + ttl) :: st.store.filter (fun e => e.1 != k) }

/-- The DEL command: remove every entry for the key. -/
def delCmd (st : RedisState) (k : String) : RedisState :=
  { st with store := st.store.filter (fun e => e.1 != k) }

/-- The task-specific key, built exactly as
`fmt.Sprintf("%s:%s", prefix, postfix)` in the Go source. -/
def taskKey (pre post : String) : String :=
  pre ++ ":" ++ post

/-- The enumeration pattern for a task class, built exactly as
`fmt.Sprintf("%s:*", prefix)` in the Go source. -/
def classPattern (pre : String) : String :=
  pre ++ ":*"

/-- The Go triple (acquired, alreadyHeld, error); `isErr` records whether the
returned error is non-nil. -/
structure AcquireResult where
  acquired : Bool
  alreadyHeld : Bool
  isErr : Bool
deriving Repr, DecidableEq

/-- Embedding of `AcquireLock` from src/tasklocker.go. It checks existence of the task
key, counts the keys matching the class pattern, and, when under the limit,
sets the key with expiry `timeout`. The flags `errExists`, `errKeys`,
`errSetEx` make the corresponding store round trip fail; `setExApplied`
tells whether a failed SETEX still wrote server-side (unobservable to the
caller). -/
def AcquireLock (st : RedisState) (pre post : String) (allowed : Int)
    (timeout : Nat) (errExists errKeys errSetEx setExApplied : Bool) :
    AcquireResult × RedisState :=
  let k := taskKey pre post
  if errExists then
    (⟨false, false, true⟩, st)
  else if 0 < existsCmd st k then
    (⟨false, true, false⟩, st)
  else if errKeys then
    (⟨false, false, true⟩, st)
  else if allowed ≤ ((keysCmd st (classPattern pre)).length : Int) then
    (⟨false, false, false⟩, st)
  else if errSetEx then
    (⟨false, false, true⟩, if setExApplied then setExCmd st k timeout else st)
  else
    (⟨true, false, false⟩, setExCmd st k timeout)

/-- Embedding of `ReleaseLock` from src/tasklocker.go: DEL the task key unconditionally.
The boolean result records whether the returned error is non-nil; `errDel`
makes the DEL round trip fail. -/
def ReleaseLock (st : RedisState) (pre post : String) (errDel : Bool) :
    Bool × RedisState :=
  if errDel then (true, st)
  else (false, delCmd st (taskKey pre post))

/-!
## Interleaving machine for concurrent callers

The Go function performs its three store operations as separate round
trips. To examine concurrent executions we cut `AcquireLock` at exactly
those round-trip boundaries: a caller is a program counter over the phases
of the function, and a schedule interleaves the atomic store operations of
several callers. Each `callerStep` performs precisely one store round trip
of the Go code (failure-free runs).
-/

/-- Program counter of one in-flight `AcquireLock` call: before the EXISTS
check, before the KEYS scan, before the SETEX write, or finished with a
result. -/
inductive AcqPhase where
  | start
  | counting
  | writing
  | done (r : AcquireResult)
deriving Repr, DecidableEq

/-- One concurrent caller of `AcquireLock` with its arguments and program
counter. -/
structure Caller where
  pre : String
  post : String
  allowed : Int
  timeout : Nat
  phase : AcqPhase
deriving Repr, DecidableEq

/-- Perform the caller's next store round trip, following the control flow
of `AcquireLock` exactly. -/
def callerStep (c : Caller) (st : RedisState) : Caller × RedisState :=
  match c.phase with
  | .start =>
    if 0 < existsCmd st (taskKey c.pre c.post) then
      ({ c with phase := .done ⟨false, true, false⟩ }, st)
    else
      ({ c with phase := .counting }, st)
  | .counting =>
    if c.allowed ≤ ((keysCmd st (classPattern c.pre)).length : Int) then
      ({ c with phase := .done ⟨false, false, false⟩ }, st)
    else
      ({ c with phase := .writing }, st)
  | .writing =>
    ({ c with phase := .done ⟨true, false, false⟩ },
      setExCmd st (taskKey c.pre c.post) c.timeout)
  | .done _ => (c, st)

/-- Run a schedule: each entry names the caller whose next store round trip
executes. Indices out of range are skipped. -/
def runSchedule (cs : List Caller) (st : RedisState) :
    List Nat → List Caller × RedisState
  | [] => (cs, st)
  | i :: rest =>
    match cs[i]? with
    | none => runSchedule cs st rest
    | some c =>
      let p := callerStep c st
      runSchedule (cs.set i p.1) p.2 rest

/-- Running one caller alone for its three round trips agrees with the
sequential failure-free `AcquireLock`. -/
theorem runSchedule_single (st : RedisState) (pre post : String)
    (allowed : Int) (timeout : Nat) :
    runSchedule [⟨pre, post, allowed, timeout, .start⟩] st [0, 0, 0] =
      ([⟨pre, post, allowed, timeout,
          .done (AcquireLock st pre post allowed timeout false false false false).1⟩],
        (AcquireLock st pre post allowed timeout false false false false).2) := by
  by_cases h1 : 0 < existsCmd st (taskKey pre post)
  · simp [runSchedule, callerStep, AcquireLock, h1]
  · by_cases h2 : allowed ≤ ((keysCmd st (classPattern pre)).length : Int)
    · simp [runSchedule, callerStep, AcquireLock, h1, h2]
    · simp [runSchedule, callerStep, AcquireLock, h1, h2]

example : existsCmd ⟨[("p:a", 5)], 0⟩ "p:a" = 1 := by decide
example : existsCmd ⟨[("p:a", 5)], 5⟩ "p:a" = 0 := by decide
example : keysCmd ⟨[("p:a", 5), ("q:b", 5)], 0⟩ (classPattern "p") = ["p:a"] := by decide
example :
    (AcquireLock ⟨[], 0⟩ "p" "a" 1 5 false false false false).1 =
      ⟨true, false, false⟩ := by decide
example :
    (AcquireLock ⟨[("p:a", 5)], 0⟩ "p" "b" 1 5 false false false false).1 =
      ⟨false, false, false⟩ := by decide
example :
    (AcquireLock ⟨[("p:a", 5)], 0⟩ "p" "a" 1 5 false false false false).1 =
      ⟨false, true, false⟩ := by decide

example :
    (runSchedule [⟨"p", "a", 1, 10, .start⟩, ⟨"p", "b", 1, 10, .start⟩]
        ⟨[], 0⟩ [0, 1, 0, 1, 0, 1]).1.map Caller.phase =
      [.done ⟨true, false, false⟩, .done ⟨true, false, false⟩] := by decide

/-!
## Sequential behavior lemmas shared by several claims
-/

/-- Failure-free acquire on a fresh key under the limit: the key is written
with expiry `timeout` and the call reports success. -/
theorem acquireLock_success (st : RedisState) (pre post : String)
    (allowed : Int) (timeout : Nat)
    (h1 : existsCmd st (taskKey pre post) = 0)
    (h2 : ((keysCmd st (classPattern pre)).length : Int) < allowed) :
    AcquireLock st pre post allowed timeout false false false false =
      (⟨true, false, false⟩, setExCmd st (taskKey pre post) timeout) := by
  simp [AcquireLock, h1, not_le.mpr h2]

/-- Failure-free acquire on a fresh key at or over the limit: plain denial,
store untouched. -/
theorem acquireLock_full (st : RedisState) (pre post : String)
    (allowed : Int) (timeout : Nat)
    (h1 : existsCmd st (taskKey pre post) = 0)
    (h2 : allowed ≤ ((keysCmd st (classPattern pre)).length : Int)) :
    AcquireLock st pre post allowed timeout false false false false =
      (⟨false, false, false⟩, st) := by
  simp [AcquireLock, h1, h2]

/-- C1: the three store round trips of `AcquireLock` (EXISTS, KEYS, SETEX)
are claimed to act as one atomic unit, admitting at most one of two racing
callers when one slot remains and never letting the live holders of a class
exceed its limit. The code refutes this: with limit 1 and an empty store,
callers A=(p,a) and B=(p,b) interleaved A,B,A,B,A,B both observe a fresh
key and a count of 0 before either writes, both are admitted, and the class
then has 2 live holder records against a limit of 1. -/
theorem acquire_race_over_admission :
    ((runSchedule [⟨"p", "a", 1, 10, .start⟩, ⟨"p", "b", 1, 10, .start⟩]
        ⟨[], 0⟩ [0, 1, 0, 1, 0, 1]).1.map Caller.phase =
      [.done ⟨true, false, false⟩, .done ⟨true, false, false⟩]) ∧
    (keysCmd (runSchedule [⟨"p", "a", 1, 10, .start⟩, ⟨"p", "b", 1, 10, .start⟩]
        ⟨[], 0⟩ [0, 1, 0, 1, 0, 1]).2 (classPattern "p")).length = 2 := by
  decide

/-- C2: a failure-free acquire on a (prefix, postfix) holding no record is
decided by the live-key count of the class: at or above the limit it
returns acquired=false, alreadyHeld=false with nil error and writes
nothing; below the limit it records the holder with expiry `timeout` and
returns acquired=true, alreadyHeld=false with nil error. -/
theorem acquire_fresh_behavior (st : RedisState) (pre post : String)
    (allowed : Int) (timeout : Nat)
    (hfresh : existsCmd st (taskKey pre post) = 0) :
    (allowed ≤ ((keysCmd st (classPattern pre)).length : Int) →
      AcquireLock st pre post allowed timeout false false false false =
        (⟨false, false, false⟩, st)) ∧
    (((keysCmd st (classPattern pre)).length : Int) < allowed →
      AcquireLock st pre post allowed timeout false false false false =
        (⟨true, false, false⟩, setExCmd st (taskKey pre post) timeout) ∧
      (taskKey pre post, st.now + timeout) ∈
        (AcquireLock st pre post allowed timeout false false false false).2.store) := by
  constructor
  · intro h
    exact acquireLock_full st pre post allowed timeout hfresh h
  · intro h
    refine ⟨acquireLock_success st pre post allowed timeout hfresh h, ?_⟩
    rw [acquireLock_success st pre post allowed timeout hfresh h]
    exact List.mem_cons_self _ _

theorem acquire_fresh_behavior_witness :
    existsCmd ⟨[], 0⟩ (taskKey "p" "a") = 0 ∧
    AcquireLock ⟨[], 0⟩ "p" "a" 1 5 false false false false =
      (⟨true, false, false⟩, setExCmd ⟨[], 0⟩ (taskKey "p" "a") 5) :=
  ⟨by decide,
    ((acquire_fresh_behavior ⟨[], 0⟩ "p" "a" 1 5 (by decide)).2 (by decide)).1⟩

/-- C3: a failure-free acquire on a (prefix, postfix) whose record already
exists returns acquired=false, alreadyHeld=true with nil error and leaves
the store untouched; and every call on a key without a record reports
alreadyHeld=false, so the already-held outcome is distinguishable from
ordinary capacity denial. -/
theorem acquire_already_held (st : RedisState) (pre post : String)
    (allowed : Int) (timeout : Nat)
    (hheld : 0 < existsCmd st (taskKey pre post)) :
    AcquireLock st pre post allowed timeout false false false false =
      (⟨false, true, false⟩, st) ∧
    (∀ (st2 : RedisState) (p2 q2 : String) (a2 : Int) (t2 : Nat),
      existsCmd st2 (taskKey p2 q2) = 0 →
      (AcquireLock st2 p2 q2 a2 t2 false false false false).1.alreadyHeld = false) := by
  constructor
  · simp [AcquireLock, hheld]
  · intro st2 p2 q2 a2 t2 h2
    by_cases hc : a2 ≤ ((keysCmd st2 (classPattern p2)).length : Int)
    · simp [AcquireLock, h2, hc]
    · simp [AcquireLock, h2, hc]

theorem acquire_already_held_witness :
    AcquireLock ⟨[("p:a", 5)], 0⟩ "p" "a" 1 5 false false false false =
      (⟨false, true, false⟩, ⟨[("p:a", 5)], 0⟩) :=
  (acquire_already_held ⟨[("p:a", 5)], 0⟩ "p" "a" 1 5 (by decide)).1

/-- C10: with a non-positive limit, a failure-free acquire on a fresh key
always returns acquired=false, alreadyHeld=false with nil error and writes
nothing, since the live-key count is never below zero; the code performs no
validation of the capacity argument. -/
theorem acquire_nonpositive_limit (st : RedisState) (pre post : String)
    (allowed : Int) (timeout : Nat)
    (hle : allowed ≤ 0)
    (hfresh : existsCmd st (taskKey pre post) = 0) :
    AcquireLock st pre post allowed timeout false false false false =
      (⟨false, false, false⟩, st) :=
  acquireLock_full st pre post allowed timeout hfresh
    (le_trans hle (Int.natCast_nonneg _))

theorem acquire_nonpositive_limit_witness :
    AcquireLock ⟨[], 0⟩ "p" "a" (-3) 5 false false false false =
      (⟨false, false, false⟩, ⟨[], 0⟩) :=
  acquire_nonpositive_limit ⟨[], 0⟩ "p" "a" (-3) 5 (by decide) (by decide)

/-- C5: `ReleaseLock` deletes exactly the entries of the addressed key and
returns a nil error: an entry survives the call precisely when it belongs
to a different key, so releasing a key with no record is a no-op success
that leaves every other holder's record in place, and a non-nil error
arises only from a DEL round-trip failure. -/
theorem release_unconditional_idempotent (st : RedisState) (pre post : String) :
    (∀ e : Bool, (ReleaseLock st pre post e).1 = e) ∧
    (∀ kv : String × Nat, kv ∈ (ReleaseLock st pre post false).2.store ↔
      kv ∈ st.store ∧ kv.1 ≠ taskKey pre post) ∧
    ((ReleaseLock st pre post false).2.now = st.now) ∧
    ((∀ kv ∈ st.store, kv.1 ≠ taskKey pre post) →
      (ReleaseLock st pre post false).2 = st) := by
  refine ⟨fun e => by cases e <;> rfl, ?_, rfl, ?_⟩
  · intro kv
    simp [ReleaseLock, delCmd, List.mem_filter]
  · intro h
    have hs : st.store.filter (fun e => e.1 != taskKey pre post) = st.store :=
      List.filter_eq_self.mpr (fun kv hkv => by simpa using h kv hkv)
    simp [ReleaseLock, delCmd, hs]

theorem release_unconditional_idempotent_witness :
    (ReleaseLock ⟨[("q:b", 5)], 0⟩ "p" "a" false).2 = ⟨[("q:b", 5)], 0⟩ :=
  (release_unconditional_idempotent ⟨[("q:b", 5)], 0⟩ "p" "a").2.2.2 (by decide)

/-- C7: whenever a store round trip inside `AcquireLock` fails, the call
reports a non-nil error with acquired=false and alreadyHeld=false; an
error is only reported when some round trip failed; a failure of the
EXISTS check or the KEYS scan leaves the store untouched (the call returns
at once, with no retry); and the caller-visible result is the same whether
or not a failed SETEX took effect server-side, so nothing is guaranteed
about creation of the record. -/
theorem acquire_error_propagation (st : RedisState) (pre post : String)
    (allowed : Int) (timeout : Nat) (e1 e2 e3 ea : Bool)
    (herr : (AcquireLock st pre post allowed timeout e1 e2 e3 ea).1.isErr = true) :
    (AcquireLock st pre post allowed timeout e1 e2 e3 ea).1.acquired = false ∧
    (AcquireLock st pre post allowed timeout e1 e2 e3 ea).1.alreadyHeld = false ∧
    (e1 || e2 || e3) = true ∧
    ((e1 || e2) = true → (AcquireLock st pre post allowed timeout e1 e2 e3 ea).2 = st) ∧
    (AcquireLock st pre post allowed timeout e1 e2 e3 true).1 =
      (AcquireLock st pre post allowed timeout e1 e2 e3 false).1 := by
  cases e1 with
  | true => simp [AcquireLock]
  | false =>
    by_cases hex : 0 < existsCmd st (taskKey pre post)
    · simp [AcquireLock, hex] at herr
    · cases e2 with
      | true => simp [AcquireLock, hex]
      | false =>
        by_cases hc : allowed ≤ ((keysCmd st (classPattern pre)).length : Int)
        · simp [AcquireLock, hex, hc] at herr
        · cases e3 with
          | true => simp [AcquireLock, hex, hc]
          | false => simp [AcquireLock, hex, hc] at herr

theorem acquire_error_propagation_witness :
    (AcquireLock ⟨[], 0⟩ "p" "a" 1 5 true false false false).1.acquired = false ∧
    (AcquireLock ⟨[], 0⟩ "p" "a" 1 5 true false false false).1.alreadyHeld = false :=
  ⟨(acquire_error_propagation ⟨[], 0⟩ "p" "a" 1 5 true false false false (by decide)).1,
    (acquire_error_propagation ⟨[], 0⟩ "p" "a" 1 5 true false false false (by decide)).2.1⟩

/-!
## The key naming contract
-/

/-- The class pattern matches exactly the keys extending the class stem:
the wildcard pattern of `AcquireLock` enumerates keys by prefix. -/
theorem patMatches_classPattern (pre k : String) :
    patMatches (classPattern pre) k = (pre ++ ":").data.isPrefixOf k.data := by
  have h1 : (":*" : String).data = [':', '*'] := rfl
  have h2 : ((":") : String).data = [':'] := rfl
  have hdata : (classPattern pre).data = (pre ++ ":").data ++ ['*'] := by
    simp [classPattern, h1, h2]
  rw [patMatches, hdata, List.getLast?_concat]
  simp [List.dropLast_concat]

/-- The task key of a class always matches the class's own pattern. -/
theorem patMatches_taskKey (pre post : String) :
    patMatches (classPattern pre) (taskKey pre post) = true := by
  have hdata : (taskKey pre post).data = (pre ++ ":").data ++ post.data := by
    simp [taskKey]
  rw [patMatches_classPattern, hdata]
  simp [ List.isPrefixOf_iff_prefix]

/-- C8: both operations address the holder record under exactly the key
"prefix:postfix", and the capacity scan of `AcquireLock` uses exactly the
wildcard pattern "prefix:*": the already-held answer is existence of that
very key, release removes exactly that very key, the pattern matches
precisely the keys extending "prefix:", and the admission decision compares
the limit against the keys enumerated by that pattern. -/
theorem key_addressing (st : RedisState) (pre post : String)
    (allowed : Int) (timeout : Nat) :
    taskKey pre post = pre ++ ":" ++ post ∧
    classPattern pre = pre ++ ":*" ∧
    (ReleaseLock st pre post false).2.store =
      st.store.filter (fun e => e.1 != pre ++ ":" ++ post) ∧
    (AcquireLock st pre post allowed timeout false false false false).1.alreadyHeld =
      decide (0 < existsCmd st (pre ++ ":" ++ post)) ∧
    (∀ k : String, patMatches (classPattern pre) k =
      (pre ++ ":").data.isPrefixOf k.data) ∧
    (existsCmd st (taskKey pre post) = 0 →
      (AcquireLock st pre post allowed timeout false false false false).1.acquired =
        decide (((keysCmd st (pre ++ ":*")).length : Int) < allowed)) := by
  refine ⟨rfl, rfl, rfl, ?_, fun k => patMatches_classPattern pre k, ?_⟩
  · by_cases hex : 0 < existsCmd st (pre ++ ":" ++ post)
    · simp [AcquireLock, taskKey, hex]
    · by_cases hc : allowed ≤ ((keysCmd st (classPattern pre)).length : Int)
      · simp [AcquireLock, taskKey, hex, hc]
      · simp [AcquireLock, taskKey, hex, hc]
  · intro hfresh
    by_cases hc : allowed ≤ ((keysCmd st (classPattern pre)).length : Int)
    · rw [acquireLock_full st pre post allowed timeout hfresh hc]
      simp [classPattern] at hc ⊢
      omega
    · rw [acquireLock_success st pre post allowed timeout hfresh (lt_of_not_le hc)]
      simp [classPattern] at hc ⊢
      omega

theorem key_addressing_witness :
    (AcquireLock ⟨[], 0⟩ "p" "a" 1 5 false false false false).1.acquired =
      decide (((keysCmd ⟨[], 0⟩ ("p" ++ ":*")).length : Int) < 1) :=
  (key_addressing ⟨[], 0⟩ "p" "a" 1 5).2.2.2.2.2 (by decide)

/-- C9: task classes related by extension interfere: the key of holder
(prefix, mid:postfix) coincides with the key of holder (prefix:mid,
postfix), and every enumerated live holder of class "prefix:mid" is also
enumerated — hence counted toward capacity — for class "prefix". -/
theorem class_interference (st : RedisState) (pre mid post k : String)
    (hk : k ∈ keysCmd st (classPattern (pre ++ ":" ++ mid))) :
    taskKey pre (mid ++ ":" ++ post) = taskKey (pre ++ ":" ++ mid) post ∧
    k ∈ keysCmd st (classPattern pre) := by
  constructor
  · simp [taskKey, String.append_assoc]
  · rw [keysCmd, List.mem_filter] at hk ⊢
    refine ⟨hk.1, ?_⟩
    have h2 := hk.2
    rw [patMatches_classPattern] at h2 ⊢
    rw [ List.isPrefixOf_iff_prefix] at h2 ⊢
    refine List.IsPrefix.trans ?_ h2
    have h3 : ((pre ++ ":" ++ mid) ++ ":").data =
        (pre ++ ":").data ++ (mid.data ++ [':']) := by
      have hc : ((":") : String).data = [':'] := rfl
      simp [hc]
    rw [h3]
    exact List.prefix_append _ _

theorem class_interference_witness :
    taskKey "a" ("b" ++ ":" ++ "c") = taskKey ("a" ++ ":" ++ "b") "c" ∧
    "a:b:c" ∈ keysCmd ⟨[("a:b:c", 5)], 0⟩ (classPattern "a") :=
  class_interference ⟨[("a:b:c", 5)], 0⟩ "a" "b" "c" "a:b:c" (by decide)

/-!
## Expiry and capacity lemmas
-/

/-- A key none of whose entries is still unexpired does not exist for the
store. -/
theorem existsCmd_eq_zero_of_dead (st : RedisState) (k : String)
    (h : ∀ e ∈ st.store, e.1 = k → e.2 ≤ st.now) : existsCmd st k = 0 := by
  rw [existsCmd, List.length_eq_zero, List.filter_eq_nil_iff]
  intro e he hb
  simp [entryLive] at hb
  have := h e he hb.1
  omega

/-- If every entry matching the pattern has expired, the KEYS scan returns
nothing. -/
theorem keysCmd_eq_nil (st : RedisState) (pat : String)
    (h : ∀ e ∈ st.store, patMatches pat e.1 = true → e.2 ≤ st.now) :
    keysCmd st pat = [] := by
  rw [keysCmd, List.filter_eq_nil_iff]
  intro k hk hpat
  obtain ⟨e, he, rfl⟩ := List.mem_map.mp hk
  have hmem := List.mem_filter.mp he
  have hlive := hmem.2
  simp [entryLive] at hlive
  have := h e hmem.1 hpat
  omega

/-- C4: a successful acquire writes the holder with expiry `now + T`; at
any clock strictly beyond that expiry the holder no longer exists for the
store and is absent from the class enumeration, and — when every other
entry of the class has likewise expired — a fresh acquire for the class
succeeds with no release having been called. -/
theorem acquire_expiry_self_healing (st : RedisState) (pre post post2 : String)
    (allowed : Int) (T t2 : Nat)
    (h1 : existsCmd st (taskKey pre post) = 0)
    (h2 : ((keysCmd st (classPattern pre)).length : Int) < allowed)
    (hpos : 1 ≤ allowed)
    (hT : st.now + T < t2)
    (hold : ∀ e ∈ st.store, patMatches (classPattern pre) e.1 = true → e.2 ≤ t2) :
    existsCmd ⟨(AcquireLock st pre post allowed T false false false false).2.store, t2⟩
        (taskKey pre post) = 0 ∧
    keysCmd ⟨(AcquireLock st pre post allowed T false false false false).2.store, t2⟩
        (classPattern pre) = [] ∧
    (AcquireLock ⟨(AcquireLock st pre post allowed T false false false false).2.store, t2⟩
        pre post2 allowed T false false false false).1.acquired = true := by
  rw [acquireLock_success st pre post allowed T h1 h2]
  have hdead : ∀ e ∈ (setExCmd st (taskKey pre post) T).store,
      patMatches (classPattern pre) e.1 = true → e.2 ≤ t2 := by
    intro e he hp
    rcases List.mem_cons.mp he with hhd | htl
    · rw [hhd]
      omega
    · exact hold e (List.mem_filter.mp htl).1 hp
  have hnil : keysCmd ⟨(setExCmd st (taskKey pre post) T).store, t2⟩
      (classPattern pre) = [] :=
    keysCmd_eq_nil _ _ hdead
  have hex2 : ∀ q : String,
      existsCmd ⟨(setExCmd st (taskKey pre post) T).store, t2⟩ (taskKey pre q) = 0 := by
    intro q
    apply existsCmd_eq_zero_of_dead
    intro e he hek
    apply hdead e he
    rw [hek]
    exact patMatches_taskKey pre q
  refine ⟨hex2 post, hnil, ?_⟩
  rw [acquireLock_success _ pre post2 allowed T (hex2 post2) ?_]
  rw [hnil]
  simpa using hpos

theorem acquire_expiry_self_healing_witness :
    (AcquireLock ⟨(AcquireLock ⟨[], 0⟩ "p" "a" 1 5 false false false false).2.store, 6⟩
        "p" "b" 1 5 false false false false).1.acquired = true :=
  (acquire_expiry_self_healing ⟨[], 0⟩ "p" "a" "b" 1 5 6 (by decide) (by decide)
    (by decide) (by decide) (by simp)).2.2

/-- The keys enumerated by a scan are without duplicates whenever the store
holds at most one entry per key. -/
theorem keysCmd_nodup (st : RedisState) (pat : String)
    (hwf : (st.store.map Prod.fst).Nodup) : (keysCmd st pat).Nodup := by
  have hsub : List.Sublist (keysCmd st pat) (st.store.map Prod.fst) :=
    (List.filter_sublist _).trans ((List.filter_sublist _).map _)
  exact hsub.nodup hwf

/-- Deleting a key restricts the scan result to the other keys. -/
theorem keysCmd_delCmd (st : RedisState) (k pat : String) :
    keysCmd (delCmd st k) pat = (keysCmd st pat).filter (fun x => x != k) := by
  simp only [keysCmd, delCmd, entryLive, List.filter_filter, List.filter_map,
    Function.comp]
  apply congrArg (List.map Prod.fst)
  apply List.filter_congr
  intro e _
  cases hp : patMatches pat e.1 <;> cases hl : (decide (st.now < e.2)) <;>
    cases hk : (e.1 != k) <;> rfl

/-- Deleting a key cannot make another key spring into existence. -/
theorem existsCmd_delCmd (st : RedisState) (k k2 : String)
    (h : existsCmd st k2 = 0) : existsCmd (delCmd st k) k2 = 0 := by
  rw [existsCmd, List.length_eq_zero, List.filter_eq_nil_iff] at h ⊢
  intro e he
  exact h e (List.mem_filter.mp he).1

/-- C6: from a class exactly at capacity, releasing one live holder and
then immediately acquiring with a fresh postfix (no interleaving, no store
failure) succeeds: the released slot is reusable at once, with no wait for
any expiry. -/
theorem release_frees_slot (st : RedisState) (pre post1 post2 : String)
    (allowed : Int) (timeout : Nat)
    (hwf : (st.store.map Prod.fst).Nodup)
    (hcap : ((keysCmd st (classPattern pre)).length : Int) = allowed)
    (hheld : taskKey pre post1 ∈ keysCmd st (classPattern pre))
    (hfresh : existsCmd st (taskKey pre post2) = 0) :
    (AcquireLock (ReleaseLock st pre post1 false).2 pre post2 allowed timeout
        false false false false).1.acquired = true := by
  have hrel : (ReleaseLock st pre post1 false).2 = delCmd st (taskKey pre post1) := rfl
  rw [hrel]
  rw [acquireLock_success _ pre post2 allowed timeout
    (existsCmd_delCmd st _ _ hfresh) ?_]
  rw [keysCmd_delCmd]
  have hnd : (keysCmd st (classPattern pre)).Nodup := keysCmd_nodup st _ hwf
  rw [← List.Nodup.erase_eq_filter hnd, List.length_erase_of_mem hheld]
  have hlen : 1 ≤ (keysCmd st (classPattern pre)).length :=
    List.length_pos.mpr (List.ne_nil_of_mem hheld)
  omega

theorem release_frees_slot_witness :
    (AcquireLock (ReleaseLock ⟨[("p:a", 9)], 0⟩ "p" "a" false).2 "p" "b" 1 5
        false false false false).1.acquired = true :=
  release_frees_slot ⟨[("p:a", 9)], 0⟩ "p" "a" "b" 1 5 (by decide) (by decide)
    (by decide) (by decide)
